import Mathlib

/-!
Verification of the discovery-matching, commissioning and registry logic of
the xrhome Matter gateway (demos/xrhome/matter-server.js), as a shallow
embedding in Lean.  Pure string/list manipulations are translated directly;
calls into the external Matter controller (pairing-code codec, mDNS scanner
results, commissionNode, removeNode, connectNode, attribute reads) are
modelled as explicit oracle parameters of the handler functions, so the
theorems quantify over every possible behaviour of the external stack.
-/

namespace XrHome

/-! ## String helpers (JS `includes`, digit sanitizing, parseInt) -/

/-- JS `s.includes(c)` for a single-character needle. -/
def includesChar (s : String) (c : Char) : Bool := s.data.contains c

/-- Check that the second list is a prefix of the first (on characters). -/
def startsWithL : List Char → List Char → Bool
  | _, [] => true
  | [], _ :: _ => false
  | a :: as, b :: bs => a == b && startsWithL as bs

/-- Substring search on character lists: does the haystack contain `sub`? -/
def hasSubL (sub : List Char) : List Char → Bool
  | [] => sub.isEmpty
  | a :: rest => startsWithL (a :: rest) sub || hasSubL sub rest

/-- JS `s.includes(sub)` for a string needle. -/
def includesStr (s sub : String) : Bool := hasSubL sub.data s.data

/-- The `isIPv6` test from matter-server.js: its textual form contains a colon. -/
def isIPv6 (ip : String) : Bool := includesChar ip ':'

/-- The address test used by `findIp`: contains a dot and no colon. -/
def isIPv4Shaped (ip : String) : Bool := includesChar ip '.' && !includesChar ip ':'

/-- JS replace of every non-digit with the empty string: keep only decimal digits. -/
def sanitizeCode (code : String) : String := String.mk (code.data.filter Char.isDigit)

/-- JS `parseInt` restricted to the all-digit strings produced by
`sanitizeCode`: `none` models the `NaN` result on the empty string. -/
def parseIntNat (s : String) : Option Nat :=
  if s.data.isEmpty then none
  else some (s.data.foldl (fun acc c => acc * 10 + (c.toNat - 48)) 0)

/-- The corrupted-placeholder test used by the unpair and control handlers:
the id equals the placeholder text [object Object] or has object as a substring. -/
def isCorruptedId (id : String) : Bool :=
  id == "[object Object]" || includesStr id "object"

/-! ## Discovery records and the address collections of `findIp`

`findIp` normalizes `d.addresses` from several JS shapes (a `Map`, an array
of `[ip, info]` pairs, an array of bare address strings, a `Set`, or a plain
object) into a list of `(ip, info)` pairs. -/

/-- The per-address metadata (`info`): possibly carries a port. -/
structure AddrInfo where
  port : Option Nat
deriving DecidableEq

/-- The JS shapes the `addresses` field of a discovery record can take, as
distinguished by the branches at matter-server.js lines 219-223. -/
inductive AddrCollection where
  | amap (entries : List (String × AddrInfo))
  | pairs (entries : List (String × AddrInfo))
  | flat (ips : List String)
  | aset (ips : List String)
  | aobj (entries : List (String × AddrInfo))
deriving DecidableEq

/-- One commissionable-device discovery record.  The discriminator may live
under the property `D` or under `discriminator` depending on the source. -/
structure DiscoveryRecord where
  D : Option Nat
  discriminator : Option Nat
  addresses : Option AddrCollection
deriving DecidableEq

/-- The normalization of `d.addresses` into a `(ip, info)` pair list
performed at the top of `findIp`; an absent field yields the empty list. -/
def normalizeAddresses : Option AddrCollection → List (String × AddrInfo)
  | none => []
  | some (.amap es) => es
  | some (.pairs es) => es
  | some (.flat ips) => ips.map (fun ip => (ip, ⟨none⟩))
  | some (.aset ips) => ips.map (fun ip => (ip, ⟨none⟩))
  | some (.aobj es) => es

/-- The normalized discriminator: `d.D` when present, else `d.discriminator`. -/
def deviceDiscriminator (d : DiscoveryRecord) : Option Nat :=
  match d.D with
  | some v => some v
  | none => d.discriminator

/-- The discriminator match decision of `findIp`: only applied when both a
short discriminator was decoded and the record advertises a discriminator;
with a long discriminator require exact equality, otherwise compare the
candidate shifted right by 8 against the short discriminator. -/
def recordMatches (shortD longD : Option Nat) (deviceD : Option Nat) : Bool :=
  match shortD, deviceD with
  | some sd, some dd =>
    match longD with
    | some ld => dd == ld
    | none => (dd >>> 8) == sd
  | _, _ => true

/-- The port of an address entry: a missing (or zero, hence
falsy) port defaults to the Matter standard port. -/
def portOf (info : AddrInfo) : Nat :=
  match info.port with
  | some p => if p == 0 then 5540 else p
  | none => 5540

/-- The result object `{device, ip, port, disc}` returned by `findIp`. -/
structure FoundIp where
  device : DiscoveryRecord
  ip : String
  port : Nat
  disc : Option Nat
deriving DecidableEq

/-- The discovery matcher `findIp` of matter-server.js: walk the record
list, skip records failing the discriminator rule, and return the first
IPv4-shaped address of the first eligible record. -/
def findIp (shortD longD : Option Nat) : List DiscoveryRecord → Option FoundIp
  | [] => none
  | d :: rest =>
    if recordMatches shortD longD (deviceDiscriminator d) then
      match (normalizeAddresses d.addresses).find? (fun p => isIPv4Shaped p.1) with
      | some p => some ⟨d, p.1, portOf p.2, deviceDiscriminator d⟩
      | none => findIp shortD longD rest
    else findIp shortD longD rest

/-! ## The IPv6 address filter (`filterIPv6`)

The runtime patch applied to the mDNS scanner.  It handles an `addresses`
field that is a JS `Map` (filter the keys) or an array whose elements are
bare strings or `{ip, ...}` objects (filter by the `ip` property). -/

/-- An element of an array-shaped `addresses` field as `filterIPv6`
understands it: a bare string or an object with an `ip` property. -/
inductive FAddr where
  | str (ip : String)
  | obj (ip : String) (port : Option Nat)
deriving DecidableEq

/-- The address text of an array element: the element itself when it is a bare string, otherwise its `ip` property. -/
def faIp : FAddr → String
  | .str ip => ip
  | .obj ip _ => ip

/-- The two `addresses` shapes `filterIPv6` has branches for. -/
inductive FAddresses where
  | fmap (entries : List (String × AddrInfo))
  | farr (items : List FAddr)
deriving DecidableEq

/-- An operational-device record as seen by `filterIPv6`. -/
structure FDevice where
  addresses : Option FAddresses
  deviceIdentifier : Option String
deriving DecidableEq

/-- The core of `filterIPv6` on a present `addresses` collection: delete
every address whose textual form contains a colon. -/
def filterFA : FAddresses → FAddresses
  | .fmap es => .fmap (es.filter (fun e => !isIPv6 e.1))
  | .farr items => .farr (items.filter (fun a => !isIPv6 (faIp a)))

/-- The `filterIPv6` patch function: a missing device or missing `addresses` field is
returned untouched, otherwise the addresses are filtered in place. -/
def filterIPv6 : Option FDevice → Option FDevice
  | none => none
  | some d =>
    match d.addresses with
    | none => some d
    | some a => some { d with addresses := some (filterFA a) }

/-- The textual addresses held in a filterable collection. -/
def addressIps : FAddresses → List String
  | .fmap es => es.map (fun e => e.1)
  | .farr items => items.map faIp

/-! ## The node registry (`commissionedNodes`, a JS `Map`)

Modelled as an association list with JS `Map` semantics: `set` replaces the
value in place when the key is present (keeping insertion order) and appends
otherwise; `delete` removes the key. -/

/-- The device record stored per commissioned node. -/
structure NodeRecord where
  nodeId : String
  type : String
  name : String
deriving DecidableEq

/-- The in-memory registry state. -/
abbrev Registry := List (String × NodeRecord)

/-- JS Map set, `commissionedNodes.set(k, v)`. -/
def regSet : Registry → String → NodeRecord → Registry
  | [], k, v => [(k, v)]
  | (k1, v1) :: rest, k, v =>
    if k1 == k then (k, v) :: rest else (k1, v1) :: regSet rest k v

/-- JS Map delete, `commissionedNodes.delete(k)`. -/
def regDelete : Registry → String → Registry
  | [], _ => []
  | (k1, v1) :: rest, k =>
    if k1 == k then regDelete rest k else (k1, v1) :: regDelete rest k

/-- JS Map lookup, `commissionedNodes.has(k)`. -/
def regHas : Registry → String → Bool
  | [], _ => false
  | (k1, _) :: rest, k => k1 == k || regHas rest k

/-! ## Unpair handler (`POST /node/:id/unpair`) -/

inductive UnpairResp where
  | ok
  | okNote (note : String)
  | err (status : Nat) (msg : String)
deriving DecidableEq

/-- The unpair handler.  `controllerPresent` is the truthiness of the global
`commissioningController`; `removeNode` is the oracle for
`BigInt(id)`/`controller.removeNode` (an `error` models either throwing). -/
def unpairHandler (controllerPresent : Bool) (removeNode : String → Except String Unit)
    (id : String) (reg : Registry) : UnpairResp × Registry :=
  if isCorruptedId id then
    (.okNote "Removed invalid entry", regDelete reg id)
  else if controllerPresent then
    match removeNode id with
    | .ok _ => (.ok, regDelete reg id)
    | .error e => (.err 500 e, regDelete reg id)
  else
    (.err 500 "Controller not initialized", regDelete reg id)

/-! ## Cluster control handlers (toggle, brightness, color, state) -/

/-- One endpoint of a connected node, exposing or lacking each cluster. -/
structure Endpoint where
  id : Nat
  hasOnOff : Bool
  hasLevel : Bool
  hasColor : Bool
deriving DecidableEq

/-- The protocol commands a control handler can issue. -/
inductive Command where
  | onCmd (endpoint : Nat)
  | offCmd (endpoint : Nat)
  | moveToLevel (level : Int) (transitionTime : Nat)
  | moveToHueSat (hue saturation : Int) (transitionTime : Nat)
deriving DecidableEq

inductive ToggleResp where
  | okEndpoint (endpoint : Nat)
  | err (status : Nat) (msg : String)
deriving DecidableEq

inductive SimpleResp where
  | ok
  | err (status : Nat) (msg : String)
deriving DecidableEq

/-- Handler of POST /light/:id/toggle.  `connect` is the oracle for
`BigInt(id)`/`connectNode` (an `error` models either throwing); the issued
commands are returned as a trace.  The handler never touches the registry,
which is threaded through unchanged. -/
def toggleHandler (connect : String → Except String (List Endpoint))
    (id : String) (onFlag : Bool) (reg : Registry) :
    ToggleResp × List Command × Registry :=
  if isCorruptedId id then
    (.err 400 "Invalid Node ID (Corrupted). Please Unpair/Remove this device.", [], reg)
  else
    match connect id with
    | .error e => (.err 500 e, [], reg)
    | .ok devices =>
      match devices.find? (fun d => d.hasOnOff) with
      | none => (.err 404 "OnOff Cluster not found on device", [], reg)
      | some d =>
        (.okEndpoint d.id, [if onFlag then .onCmd d.id else .offCmd d.id], reg)

/-- Handler of POST /light/:id/brightness: the `level` of the request body is handed to
`moveToLevel` unchanged, with `transitionTime: 0`. -/
def brightnessHandler (connect : String → Except String (List Endpoint))
    (id : String) (level : Int) (reg : Registry) :
    SimpleResp × List Command × Registry :=
  if isCorruptedId id then
    (.err 400 "Invalid Node ID", [], reg)
  else
    match connect id with
    | .error e => (.err 500 e, [], reg)
    | .ok devices =>
      match devices.find? (fun d => d.hasLevel) with
      | none => (.err 404 "LevelControl Cluster not found on device", [], reg)
      | some _ => (.ok, [.moveToLevel level 0], reg)

/-- Handler of POST /light/:id/color. -/
def colorHandler (connect : String → Except String (List Endpoint))
    (id : String) (hue saturation : Int) (reg : Registry) :
    SimpleResp × List Command × Registry :=
  if isCorruptedId id then
    (.err 400 "Invalid Node ID", [], reg)
  else
    match connect id with
    | .error e => (.err 500 e, [], reg)
    | .ok devices =>
      match devices.find? (fun d => d.hasColor) with
      | none => (.err 404 "ColorControl Cluster not found on device", [], reg)
      | some _ => (.ok, [.moveToHueSat hue saturation 0], reg)

/-! ## State read handler (`GET /light/:id/state`) -/

/-- A JS value as the on/off attribute read can produce it: a boolean,
`null`, an object carrying a `value` property, or an object without one. -/
inductive JsVal where
  | jbool (b : Bool)
  | jnull
  | jobjVal (value : JsVal)
  | jobjOther
deriving DecidableEq

/-- The unwrap step applied when the read value is an object and not null; the result
`none` models `undefined` (an object without a `value` property). -/
def unwrapOnOff : JsVal → Option JsVal
  | .jobjVal v => some v
  | .jobjOther => none
  | .jbool b => some (.jbool b)
  | .jnull => some .jnull

/-- Which of the attribute access paths produced the raw value: the
`attributes.onOff.get()` path, the legacy `getOnOffAttribute()` fallback, or
neither (then `isOn` keeps its initial `false`). -/
inductive ReadSource where
  | attr (v : JsVal)
  | legacy (v : JsVal)
  | missing
deriving DecidableEq

inductive StateResp where
  | okState (isOn : Option JsVal)
  | err (status : Nat) (msg : String)
deriving DecidableEq

/-- Handler of GET /light/:id/state.  `read` is the oracle for the attribute read
(an `error` models a throw caught by the surrounding try). -/
def stateHandler (connect : String → Except String (List Endpoint))
    (read : Except String ReadSource) (id : String) (reg : Registry) :
    StateResp × Registry :=
  if isCorruptedId id then
    (.err 400 "Invalid Node ID", reg)
  else
    match connect id with
    | .error e => (.err 500 e, reg)
    | .ok devices =>
      match devices.find? (fun d => d.hasOnOff) with
      | none => (.err 404 "OnOff Cluster not found", reg)
      | some _ =>
        match read with
        | .error e => (.err 500 e, reg)
        | .ok src =>
          let isOn : JsVal :=
            match src with
            | .attr v => v
            | .legacy v => v
            | .missing => .jbool false
          (.okState (unwrapOnOff isOn), reg)

/-! ## Commission handler (`POST /commission`) -/

/-- The decoded content of a structured manual pairing code, as returned by
the external `ManualPairingCodeCodec.decode`. -/
structure DecodedCode where
  passcode : Nat
  shortDiscriminator : Option Nat
  longDiscriminator : Option Nat

/-- The options object handed to `commissionNode`.  `identifierData = none`
models the field having been deleted; `some sd` models
`identifierData: { shortDiscriminator: sd }` (where `sd` itself may be the
JS `undefined`, hence the nested option). -/
structure CommissionOptions where
  passcode : Option Nat
  addresses : List (String × Nat)
  discoveryTimeoutSeconds : Nat
  identifierData : Option (Option Nat)
  knownAddress : Option (String × Nat)
  ip : Option String
  port : Option Nat
deriving DecidableEq

/-- The forced port, `targetPort || 5540`. -/
def forcedPort (p : Nat) : Nat := if p == 0 then 5540 else p

/-- Construction of `commissionOptions`: the base object carries the
discriminator hint; when an IPv4 target was found the address is forced
(`ip`, `port`, `addresses`, `discovery.knownAddress`) and the
`identifierData` hint is deleted. -/
def buildCommissionOptions (passcode : Option Nat) (shortD : Option Nat)
    (found : Option FoundIp) : CommissionOptions :=
  match found with
  | none =>
    { passcode := passcode, addresses := [], discoveryTimeoutSeconds := 30,
      identifierData := some shortD, knownAddress := none,
      ip := none, port := none }
  | some f =>
    { passcode := passcode, addresses := [(f.ip, forcedPort f.port)],
      discoveryTimeoutSeconds := 30, identifierData := none,
      knownAddress := some (f.ip, forcedPort f.port),
      ip := some f.ip, port := some (forcedPort f.port) }

/-- The code-parsing stage of the commission handler: codes longer than 8
digits go through the manual-pairing-code codec (whose failure is the
error of the caller), shorter ones are `parseInt`-ed as a bare passcode with no
discriminator.  Returns `(passcode, shortDiscriminator, longDiscriminator)`. -/
def decodeStage (decode : String → Except String DecodedCode)
    (cleanlyCode : String) : Except String (Option Nat × Option Nat × Option Nat) :=
  if cleanlyCode.length > 8 then
    match decode cleanlyCode with
    | .ok d => .ok (some d.passcode, d.shortDiscriminator, d.longDiscriminator)
    | .error e => .error e
  else
    .ok (parseIntNat cleanlyCode, none, none)

/-- The match-then-escalate target resolution: run `findIp` over the first
records of the first scan, and when that fails and a short discriminator is known,
re-run it over the records accumulated after the targeted discovery. -/
def resolveTarget (shortD longD : Option Nat)
    (devices retryDevices : List DiscoveryRecord) : Option FoundIp :=
  match findIp shortD longD devices with
  | some f => some f
  | none =>
    match shortD with
    | some _ => findIp shortD longD retryDevices
    | none => none

/-- The display label, `req.body.label || "Matter Device"`. -/
def labelOrDefault : Option String → String
  | some l => if l.isEmpty then "Matter Device" else l
  | none => "Matter Device"

inductive CommissionResp where
  | okNode (nodeId : String)
  | err (status : Nat) (msg : String)
deriving DecidableEq

/-- The observable outcome of one commission request: the HTTP response,
the registry afterwards, and the options object passed to the `commissionNode`
operation of the controller (`none` when it was never invoked). -/
structure CommissionResult where
  response : CommissionResp
  registry : Registry
  sentOptions : Option CommissionOptions
deriving DecidableEq

/-- The `POST /commission` handler.  Oracles: `decode` for
`ManualPairingCodeCodec.decode`, `devices`/`retryDevices` for the record set
of the scanner before and after the targeted re-scan, `commissionNode` for
the commissioning operation of the controller (returning the already-stringified
node id), `suffix` for the random 3-digit display-name suffix. -/
def commissionHandler (decode : String → Except String DecodedCode)
    (devices retryDevices : List DiscoveryRecord)
    (commissionNode : CommissionOptions → Except String String)
    (suffix : String) (label : Option String)
    (code : Option String) (reg : Registry) : CommissionResult :=
  match code with
  | none => ⟨.err 400 "Missing pairing code", reg, none⟩
  | some c =>
    if c.isEmpty then ⟨.err 400 "Missing pairing code", reg, none⟩
    else
      match decodeStage decode (sanitizeCode c) with
      | .error _ => ⟨.err 400 "Invalid Code Format", reg, none⟩
      | .ok (passcode, shortD, longD) =>
        let found := resolveTarget shortD longD devices retryDevices
        let opts := buildCommissionOptions passcode shortD found
        match commissionNode opts with
        | .error e => ⟨.err 500 e, reg, some opts⟩
        | .ok idStr =>
          ⟨.okNode idStr,
            regSet reg idStr ⟨idStr, "Unknown", labelOrDefault label ++ "-" ++ suffix⟩,
            some opts⟩

/-! ## Registry-mutating operation sequences (for the registry invariant) -/

/-- One registry-touching server operation, carrying the oracles for the
external calls its handler makes. -/
inductive ServerOp where
  | commission (decode : String → Except String DecodedCode)
      (devices retryDevices : List DiscoveryRecord)
      (commissionNode : CommissionOptions → Except String String)
      (suffix : String) (label : Option String) (code : Option String)
  | unpair (controllerPresent : Bool) (removeNode : String → Except String Unit)
      (id : String)
  | list

/-- The registry after handling one operation (`GET /lights` only reads). -/
def stepRegistry (reg : Registry) : ServerOp → Registry
  | .commission dec dv rdv cn sfx lbl code =>
    (commissionHandler dec dv rdv cn sfx lbl code reg).registry
  | .unpair cp rn id => (unpairHandler cp rn id reg).2
  | .list => reg

/-- The registry after a whole request sequence. -/
def runOps (reg : Registry) (ops : List ServerOp) : Registry :=
  ops.foldl stepRegistry reg

/-- The stored-record invariant: the `nodeId` of every record equals its key. -/
def registryWF : Registry → Bool
  | [] => true
  | (k, v) :: rest => (v.nodeId == k) && registryWF rest

/-- Key uniqueness of the JS `Map`. -/
def keysNodup : Registry → Bool
  | [] => true
  | (k, _) :: rest => !(regHas rest k) && keysNodup rest

/-! ## Shape-equivalence pipeline (for the three address-collection shapes) -/

/-- The same logical addresses presented with per-address metadata. -/
def pairsOf (ips : List String) (meta : String → AddrInfo) : List (String × AddrInfo) :=
  ips.map (fun ip => (ip, meta ip))

/-- The addresses of a collection after `findIp` normalization. -/
def normalizedIps (c : AddrCollection) : List String :=
  (normalizeAddresses (some c)).map (fun p => p.1)

/-- The addresses of a collection surviving `findIp` normalization plus its
IPv4-shaped selection. -/
def survivingIps (c : AddrCollection) : List String :=
  ((normalizeAddresses (some c)).filter (fun p => isIPv4Shaped p.1)).map (fun p => p.1)

/-- Modelled from the spec: the uniform filtered-list representation that
the address filter is described as normalizing every collection shape into,
an address being excluded exactly when its textual form contains a colon. -/
def uniformFilteredList (ips : List String) : List String :=
  ips.filter (fun ip => !isIPv6 ip)

/-! ## Concrete fixtures used by witnesses and counterexamples -/

/-- A discovery record advertising no discriminator at all, with one
IPv4-shaped address. -/
def noDiscRecord : DiscoveryRecord := ⟨none, none, some (.flat ["10.0.0.9"])⟩

/-- A discovery record advertising discriminator 1280 (upper byte 5). -/
def rec1280 : DiscoveryRecord := ⟨some 1280, none, some (.flat ["10.0.0.9"])⟩

/-- An endpoint exposing all three clusters. -/
def levelEndpoint : Endpoint := ⟨1, true, true, true⟩

/-- A pairing-code decode oracle that always fails. -/
def decFail : String → Except String DecodedCode := fun _ => .error "malformed"

/-- A pairing-code decode oracle that always succeeds. -/
def decOk : String → Except String DecodedCode := fun _ => .ok ⟨20202021, some 5, none⟩

/-- A commissioning oracle that succeeds with node id 77. -/
def cnOk : CommissionOptions → Except String String := fun _ => .ok "77"

/-- A connect oracle returning a single all-cluster endpoint. -/
def connectOne : String → Except String (List Endpoint) := fun _ => .ok [levelEndpoint]

/-- A removeNode oracle that always fails. -/
def rnFail : String → Except String Unit := fun _ => .error "boom"

/-- A one-entry registry satisfying the key invariant. -/
def regOne : Registry := [("5", ⟨"5", "Unknown", "Lamp-001"⟩)]

/-! ## Registry lemmas -/

theorem regHas_regDelete (reg : Registry) (k : String) :
    regHas (regDelete reg k) k = false := by
  induction reg with
  | nil => rfl
  | cons p rest ih =>
    obtain ⟨k1, v1⟩ := p
    cases hb : (k1 == k) with
    | true => simpa [regDelete, hb] using ih
    | false => simp [regDelete, hb, regHas, ih]

theorem registryWF_regDelete (reg : Registry) (k : String)
    (h : registryWF reg = true) : registryWF (regDelete reg k) = true := by
  induction reg with
  | nil => rfl
  | cons p rest ih =>
    obtain ⟨k1, v1⟩ := p
    obtain ⟨h1, h2⟩ := Bool.and_eq_true_iff.mp h
    cases hb : (k1 == k) with
    | true => simpa [regDelete, hb] using ih h2
    | false => simp [regDelete, hb, registryWF, h1, ih h2]

theorem regHas_regDelete_le (reg : Registry) (k k2 : String)
    (h : regHas (regDelete reg k) k2 = true) : regHas reg k2 = true := by
  induction reg with
  | nil => simpa [regDelete] using h
  | cons p rest ih =>
    obtain ⟨k1, v1⟩ := p
    cases hb : (k1 == k) with
    | true =>
      rw [regDelete, if_pos hb] at h
      simp [regHas, ih h]
    | false =>
      rw [regDelete, if_neg (by simp [hb])] at h
      rcases Bool.or_eq_true_iff.mp h with h12 | hrest
      · simp [regHas, h12]
      · simp [regHas, ih hrest]

theorem keysNodup_regDelete (reg : Registry) (k : String)
    (h : keysNodup reg = true) : keysNodup (regDelete reg k) = true := by
  induction reg with
  | nil => rfl
  | cons p rest ih =>
    obtain ⟨k1, v1⟩ := p
    obtain ⟨h1, h2⟩ := Bool.and_eq_true_iff.mp h
    cases hb : (k1 == k) with
    | true => simpa [regDelete, hb] using ih h2
    | false =>
      rw [regDelete, if_neg (by simp [hb])]
      rw [keysNodup]
      refine Bool.and_eq_true_iff.mpr ⟨?_, ih h2⟩
      cases hc : regHas (regDelete rest k) k1 with
      | false => rfl
      | true =>
        have := regHas_regDelete_le rest k k1 hc
        rw [Bool.not_eq_true', ← Bool.not_eq_true] at h1
        exact absurd this h1

theorem registryWF_regSet (reg : Registry) (k : String) (v : NodeRecord)
    (hv : v.nodeId = k) (h : registryWF reg = true) :
    registryWF (regSet reg k v) = true := by
  induction reg with
  | nil => simp [regSet, registryWF, hv]
  | cons p rest ih =>
    obtain ⟨k1, v1⟩ := p
    obtain ⟨h1, h2⟩ := Bool.and_eq_true_iff.mp h
    cases hb : (k1 == k) with
    | true => simp [regSet, hb, registryWF, hv, h2]
    | false => simp [regSet, hb, registryWF, h1, ih h2]

theorem regHas_regSet (reg : Registry) (k k2 : String) (v : NodeRecord) :
    regHas (regSet reg k v) k2 = (k == k2 || regHas reg k2) := by
  induction reg with
  | nil => simp [regSet, regHas]
  | cons p rest ih =>
    obtain ⟨k1, v1⟩ := p
    cases hb : (k1 == k) with
    | true =>
      have hk : k1 = k := by simpa using hb
      subst hk
      simp [regSet, regHas]
    | false =>
      rw [regSet, if_neg (by simp [hb])]
      rw [regHas, ih, regHas]
      cases k1 == k2 <;> cases k == k2 <;> simp

theorem keysNodup_regSet (reg : Registry) (k : String) (v : NodeRecord)
    (h : keysNodup reg = true) : keysNodup (regSet reg k v) = true := by
  induction reg with
  | nil => simp [regSet, keysNodup, regHas]
  | cons p rest ih =>
    obtain ⟨k1, v1⟩ := p
    obtain ⟨h1, h2⟩ := Bool.and_eq_true_iff.mp h
    cases hb : (k1 == k) with
    | true =>
      have hk : k1 = k := by simpa using hb
      subst hk
      simp only [regSet, beq_self_eq_true, if_pos, keysNodup]
      simp only [keysNodup] at h
      exact Bool.and_eq_true_iff.mpr ⟨h1, h2⟩
    | false =>
      rw [regSet, if_neg (by simp [hb])]
      rw [keysNodup]
      refine Bool.and_eq_true_iff.mpr ⟨?_, ih h2⟩
      rw [regHas_regSet]
      have hne : ¬ k1 = k := by simpa using hb
      have hkk : (k == k1) = false := by
        cases hc : (k == k1) with
        | false => rfl
        | true => exact absurd (by simpa using hc : k = k1).symm hne
      rw [hkk]
      simpa using h1

theorem regSet_keys_of_mem (reg : Registry) (k : String) (v : NodeRecord)
    (h : regHas reg k = true) :
    (regSet reg k v).map (fun p => p.1) = reg.map (fun p => p.1) := by
  induction reg with
  | nil => simp [regHas] at h
  | cons p rest ih =>
    obtain ⟨k1, v1⟩ := p
    cases hb : (k1 == k) with
    | true =>
      have hk : k1 = k := by simpa using hb
      subst hk
      simp [regSet]
    | false =>
      rw [regHas, hb, Bool.false_or] at h
      rw [regSet, if_neg (by simp [hb])]
      simp [ih h]

theorem unpairHandler_registry (cp : Bool) (rn : String → Except String Unit)
    (id : String) (reg : Registry) :
    (unpairHandler cp rn id reg).2 = regDelete reg id := by
  unfold unpairHandler
  cases hc : isCorruptedId id with
  | true => simp
  | false =>
    cases cp with
    | true =>
      cases hr : rn id with
      | ok u => simp [hr]
      | error e => simp [hr]
    | false => simp

theorem commissionHandler_registry (dec : String → Except String DecodedCode)
    (dv rdv : List DiscoveryRecord) (cn : CommissionOptions → Except String String)
    (sfx : String) (lbl : Option String) (code : Option String) (reg : Registry) :
    (commissionHandler dec dv rdv cn sfx lbl code reg).registry = reg ∨
    ∃ idStr nm, (commissionHandler dec dv rdv cn sfx lbl code reg).registry =
      regSet reg idStr ⟨idStr, "Unknown", nm⟩ := by
  unfold commissionHandler
  cases code with
  | none => exact Or.inl rfl
  | some c =>
    cases hce : c.isEmpty with
    | true => simp [hce]
    | false =>
      cases hds : decodeStage dec (sanitizeCode c) with
      | error e => simp [hce, hds]
      | ok triple =>
        obtain ⟨pc, sd, ld⟩ := triple
        cases hcn : cn (buildCommissionOptions pc sd (resolveTarget sd ld dv rdv)) with
        | error e => simp [hce, hds, hcn]
        | ok idStr =>
          right
          exact ⟨idStr, labelOrDefault lbl ++ "-" ++ sfx, by simp [hce, hds, hcn]⟩

theorem stepRegistry_preserves (reg : Registry) (op : ServerOp)
    (hwf : registryWF reg = true) (hnd : keysNodup reg = true) :
    registryWF (stepRegistry reg op) = true ∧ keysNodup (stepRegistry reg op) = true := by
  cases op with
  | commission dec dv rdv cn sfx lbl code =>
    rcases commissionHandler_registry dec dv rdv cn sfx lbl code reg with h | ⟨idStr, nm, h⟩
    · rw [stepRegistry, h]; exact ⟨hwf, hnd⟩
    · rw [stepRegistry, h]
      exact ⟨registryWF_regSet reg idStr ⟨idStr, "Unknown", nm⟩ rfl hwf,
        keysNodup_regSet reg idStr ⟨idStr, "Unknown", nm⟩ hnd⟩
  | unpair cp rn id =>
    rw [stepRegistry, unpairHandler_registry]
    exact ⟨registryWF_regDelete reg id hwf, keysNodup_regDelete reg id hnd⟩
  | list => exact ⟨hwf, hnd⟩

theorem runOps_preserves (ops : List ServerOp) (reg : Registry)
    (hwf : registryWF reg = true) (hnd : keysNodup reg = true) :
    registryWF (runOps reg ops) = true ∧ keysNodup (runOps reg ops) = true := by
  induction ops generalizing reg with
  | nil => exact ⟨hwf, hnd⟩
  | cons op rest ih =>
    obtain ⟨h1, h2⟩ := stepRegistry_preserves reg op hwf hnd
    simpa [runOps, List.foldl] using ih (stepRegistry reg op) h1 h2

theorem regHas_eq_false_iff (reg : Registry) (k : String) :
    regHas reg k = false ↔ k ∉ reg.map (fun p => p.1) := by
  induction reg with
  | nil => simp [regHas]
  | cons p rest ih =>
    obtain ⟨k1, v1⟩ := p
    rw [regHas]
    constructor
    · intro h
      obtain ⟨h1, h2⟩ := Bool.or_eq_false_iff.mp h
      simp only [List.map, List.mem_cons]
      rintro (he | hm)
      · exact absurd (by simpa using he.symm : (k1 == k) = true) (by simp [h1])
      · exact absurd hm (ih.mp h2)
    · intro h
      simp only [List.map, List.mem_cons, not_or] at h
      refine Bool.or_eq_false_iff.mpr ⟨?_, ih.mpr h.2⟩
      cases hc : (k1 == k) with
      | false => rfl
      | true => exact absurd (by simpa using hc : k1 = k).symm h.1

theorem keysNodup_nodup (reg : Registry) (h : keysNodup reg = true) :
    (reg.map (fun p => p.1)).Nodup := by
  induction reg with
  | nil => simp
  | cons p rest ih =>
    obtain ⟨k1, v1⟩ := p
    obtain ⟨h1, h2⟩ := Bool.and_eq_true_iff.mp h
    refine List.nodup_cons.mpr ⟨?_, ih h2⟩
    exact (regHas_eq_false_iff rest k1).mp (by simpa using h1)

theorem nodeIds_eq_keys (reg : Registry) (h : registryWF reg = true) :
    reg.map (fun p => p.2.nodeId) = reg.map (fun p => p.1) := by
  induction reg with
  | nil => rfl
  | cons p rest ih =>
    obtain ⟨k1, v1⟩ := p
    obtain ⟨h1, h2⟩ := Bool.and_eq_true_iff.mp h
    simp only [List.map]
    rw [ih h2]
    have : v1.nodeId = k1 := by simpa using h1
    rw [this]

/-! ## Generic list lemmas -/

theorem map_filter_comm {α β : Type} (f : α → β) (p : β → Bool) (l : List α) :
    (l.filter (fun a => p (f a))).map f = (l.map f).filter p := by
  induction l with
  | nil => rfl
  | cons a rest ih => cases hp : p (f a) <;> simp [hp, ih]

theorem filter_idem {α : Type} (p : α → Bool) (l : List α) :
    (l.filter p).filter p = l.filter p := by
  induction l with
  | nil => rfl
  | cons a rest ih => cases hp : p a <;> simp [hp, ih]

theorem filter_fst_pairs (p : String → Bool) (meta : String → AddrInfo) (ips : List String) :
    ((ips.map (fun ip => (ip, meta ip))).filter (fun e => p e.1)).map (fun e => e.1) =
      ips.filter p := by
  induction ips with
  | nil => rfl
  | cons ip rest ih => cases hp : p ip <;> simp [hp, ih]

theorem map_fst_pairsOf (ips : List String) (meta : String → AddrInfo) :
    (pairsOf ips meta).map (fun p => p.1) = ips := by
  induction ips with
  | nil => rfl
  | cons ip rest ih =>
    simp only [pairsOf, List.map_cons] at ih ⊢
    rw [ih]

theorem map_faIp_str (ips : List String) : (ips.map FAddr.str).map faIp = ips := by
  induction ips with
  | nil => rfl
  | cons ip rest ih =>
    simp only [List.map_cons, faIp] at ih ⊢
    rw [ih]

theorem filterFA_idem (a : FAddresses) : filterFA (filterFA a) = filterFA a := by
  cases a with
  | fmap es => simp [filterFA, filter_idem]
  | farr items => simp [filterFA, filter_idem]

/-! ## Helper lemmas about the matcher and the commission pipeline -/

theorem recordMatches_some_elim (sd : Nat) (longD : Option Nat) (dD : Option Nat)
    (hm : recordMatches (some sd) longD dD = true) :
    dD = none ∨ (∃ ld, longD = some ld ∧ dD = some ld) ∨
    (longD = none ∧ ∃ dd, dD = some dd ∧ dd >>> 8 = sd) := by
  cases dD with
  | none => exact Or.inl rfl
  | some dd =>
    cases longD with
    | some ld =>
      refine Or.inr (Or.inl ⟨ld, rfl, ?_⟩)
      have : dd = ld := by simpa [recordMatches] using hm
      rw [this]
    | none =>
      refine Or.inr (Or.inr ⟨rfl, dd, rfl, ?_⟩)
      simpa [recordMatches] using hm

theorem jobjVal_ne_self (v : JsVal) : JsVal.jobjVal v ≠ v := by
  intro h
  have hs := congrArg sizeOf h
  simp only [JsVal.jobjVal.sizeOf_spec] at hs
  omega

theorem buildCommissionOptions_passcode (pc sd : Option Nat) (found : Option FoundIp) :
    (buildCommissionOptions pc sd found).passcode = pc := by
  cases found <;> rfl

theorem commissionHandler_sentOptions (dec : String → Except String DecodedCode)
    (dv rdv : List DiscoveryRecord) (cn : CommissionOptions → Except String String)
    (sfx : String) (lbl : Option String) (code : Option String) (reg : Registry)
    (o : CommissionOptions)
    (h : (commissionHandler dec dv rdv cn sfx lbl code reg).sentOptions = some o) :
    ∃ pc sd ld, o = buildCommissionOptions pc sd (resolveTarget sd ld dv rdv) := by
  unfold commissionHandler at h
  cases code with
  | none => simp at h
  | some c =>
    cases hce : c.isEmpty with
    | true => simp [hce] at h
    | false =>
      cases hds : decodeStage dec (sanitizeCode c) with
      | error e => simp [hce, hds] at h
      | ok triple =>
        obtain ⟨pc, sd, ld⟩ := triple
        cases hcn : cn (buildCommissionOptions pc sd (resolveTarget sd ld dv rdv)) with
        | error e =>
          simp [hce, hds, hcn] at h
          exact ⟨pc, sd, ld, h.symm⟩
        | ok idStr =>
          simp [hce, hds, hcn] at h
          exact ⟨pc, sd, ld, h.symm⟩

/-! ## Claim theorems -/

/-- C1 (counterexample): with a short discriminator 5 supplied, `findIp`
returns a match for a record that advertises no discriminator at all, so
its upper-byte discriminator does not equal 5 — refuting the claim that a
match is returned only for records whose upper-byte discriminator equals
the supplied short discriminator. -/
theorem findIp_matches_record_without_discriminator :
    findIp (some 5) none [noDiscRecord] =
      some ⟨noDiscRecord, "10.0.0.9", 5540, none⟩ ∧
    deviceDiscriminator noDiscRecord = none ∧
    (deviceDiscriminator noDiscRecord).map (fun dd => dd >>> 8) ≠ some 5 := by
  exact ⟨by decide, rfl, by decide⟩

/-- C1 (amended): every match returned by the discovery matcher is for a
record that either advertises no discriminator (such records are always
eligible) or whose discriminator satisfies the rule: with a decoded long
discriminator, exact equality; otherwise the discriminator shifted right by
8 bits equals the supplied short discriminator. -/
theorem findIp_discriminator_rule (sd : Nat) (longD : Option Nat)
    (records : List DiscoveryRecord) (r : FoundIp)
    (h : findIp (some sd) longD records = some r) :
    deviceDiscriminator r.device = none ∨
    (∃ ld, longD = some ld ∧ deviceDiscriminator r.device = some ld) ∨
    (longD = none ∧ ∃ dd, deviceDiscriminator r.device = some dd ∧ dd >>> 8 = sd) := by
  induction records with
  | nil => simp [findIp] at h
  | cons d rest ih =>
    rw [findIp] at h
    cases hm : recordMatches (some sd) longD (deviceDiscriminator d) with
    | false =>
      rw [hm] at h
      simp only [Bool.false_eq_true, if_false] at h
      exact ih h
    | true =>
      rw [hm] at h
      simp only [if_true] at h
      cases hf : (normalizeAddresses d.addresses).find? (fun p => isIPv4Shaped p.1) with
      | none =>
        rw [hf] at h
        exact ih h
      | some p =>
        rw [hf] at h
        have hr : r = ⟨d, p.1, portOf p.2, deviceDiscriminator d⟩ :=
          (Option.some.injEq _ _ ▸ h).symm
        rw [hr]
        exact recordMatches_some_elim sd longD (deviceDiscriminator d) hm

/-- C1 (witness): the amended rule applied to a concrete record with
discriminator 1280, whose upper byte is 5. -/
theorem findIp_discriminator_rule_witness :
    deviceDiscriminator rec1280 = none ∨
    (∃ ld, (none : Option Nat) = some ld ∧ deviceDiscriminator rec1280 = some ld) ∨
    ((none : Option Nat) = none ∧
      ∃ dd, deviceDiscriminator rec1280 = some dd ∧ dd >>> 8 = 5) := by
  have := findIp_discriminator_rule 5 none [rec1280]
    ⟨rec1280, "10.0.0.9", 5540, some 1280⟩ (by decide)
  simpa using this

/-- C2: the commission handler strips the raw code to its digits; when more
than 8 digits remain, a failing structured decode yields the 400 response
"Invalid Code Format" with the registry untouched and the commissioning
operation never invoked; when 8 digits or fewer remain, the outcome is
independent of the decode oracle (no structured decode is attempted) and
any options passed to the controller carry the bare `parseInt`-ed passcode
and no decoded discriminator. -/
theorem commission_decode_gate
    (dec dec2 : String → Except String DecodedCode)
    (dv rdv : List DiscoveryRecord) (cn : CommissionOptions → Except String String)
    (sfx : String) (lbl : Option String) (code : String) (reg : Registry)
    (hne : code.isEmpty = false) :
    ((sanitizeCode code).length > 8 → ∀ e, dec (sanitizeCode code) = .error e →
      commissionHandler dec dv rdv cn sfx lbl (some code) reg =
        ⟨.err 400 "Invalid Code Format", reg, none⟩) ∧
    ((sanitizeCode code).length ≤ 8 →
      (commissionHandler dec dv rdv cn sfx lbl (some code) reg =
        commissionHandler dec2 dv rdv cn sfx lbl (some code) reg) ∧
      ∀ o, (commissionHandler dec dv rdv cn sfx lbl (some code) reg).sentOptions = some o →
        o.passcode = parseIntNat (sanitizeCode code) ∧
        (o.identifierData = none ∨ o.identifierData = some none)) := by
  constructor
  · intro hlen e hdec
    have hds : decodeStage dec (sanitizeCode code) = .error e := by
      rw [decodeStage, if_pos hlen, hdec]
    simp [commissionHandler, hne, hds]
  · intro hlen
    have hnot : ¬ (sanitizeCode code).length > 8 := by omega
    have hds : decodeStage dec (sanitizeCode code) =
        .ok (parseIntNat (sanitizeCode code), none, none) := by
      rw [decodeStage, if_neg hnot]
    have hds2 : decodeStage dec2 (sanitizeCode code) =
        .ok (parseIntNat (sanitizeCode code), none, none) := by
      rw [decodeStage, if_neg hnot]
    refine ⟨by simp [commissionHandler, hne, hds, hds2], ?_⟩
    intro o ho
    set found := resolveTarget none none dv rdv with hfound
    cases hcn : cn (buildCommissionOptions (parseIntNat (sanitizeCode code)) none found) with
    | error e =>
      simp [commissionHandler, hne, hds, ← hfound, hcn] at ho
      rw [← ho]
      refine ⟨buildCommissionOptions_passcode _ _ _, ?_⟩
      cases found with
      | none => exact Or.inr rfl
      | some f => exact Or.inl rfl
    | ok idStr =>
      simp [commissionHandler, hne, hds, ← hfound, hcn] at ho
      rw [← ho]
      refine ⟨buildCommissionOptions_passcode _ _ _, ?_⟩
      cases found with
      | none => exact Or.inr rfl
      | some f => exact Or.inl rfl

/-- C2 (witness): a malformed 12-digit code is rejected as 400 "Invalid
Code Format" without commissioning, and the outcome for an 8-digit code does not
depend on the decode oracle. -/
theorem commission_decode_gate_witness :
    commissionHandler decFail [] [] cnOk "001" none (some "123456789012") [] =
      ⟨.err 400 "Invalid Code Format", [], none⟩ ∧
    commissionHandler decFail [] [] cnOk "001" none (some "20202021") [] =
      commissionHandler decOk [] [] cnOk "001" none (some "20202021") [] := by
  constructor
  · exact (commission_decode_gate decFail decOk [] [] cnOk "001" none "123456789012" []
      (by decide)).1 (by decide) "malformed" rfl
  · exact ((commission_decode_gate decFail decOk [] [] cnOk "001" none "20202021" []
      (by decide)).2 (by decide)).1

/-- C3: whenever a concrete IPv4 target was resolved, the options object
built for `commissionNode` carries the forced address (`ip`, `port`, the
`addresses` list and `discovery.knownAddress`) and its discovery
`identifierData` hint has been deleted; and on every path, the options
actually handed to the controller never combine a forced address with a
discriminator hint. -/
theorem forced_address_suppresses_discovery_hint
    (pc sd : Option Nat) (f : FoundIp)
    (dec : String → Except String DecodedCode) (dv rdv : List DiscoveryRecord)
    (cn : CommissionOptions → Except String String) (sfx : String)
    (lbl : Option String) (code : Option String) (reg : Registry)
    (o : CommissionOptions)
    (ho : (commissionHandler dec dv rdv cn sfx lbl code reg).sentOptions = some o) :
    (buildCommissionOptions pc sd (some f)).ip = some f.ip ∧
    (buildCommissionOptions pc sd (some f)).port = some (forcedPort f.port) ∧
    (buildCommissionOptions pc sd (some f)).addresses = [(f.ip, forcedPort f.port)] ∧
    (buildCommissionOptions pc sd (some f)).knownAddress =
      some (f.ip, forcedPort f.port) ∧
    (buildCommissionOptions pc sd (some f)).identifierData = none ∧
    (o.ip.isSome = true → o.identifierData = none) := by
  refine ⟨rfl, rfl, rfl, rfl, rfl, ?_⟩
  intro hip
  obtain ⟨pc2, sd2, ld2, rfl⟩ :=
    commissionHandler_sentOptions dec dv rdv cn sfx lbl code reg o ho
  cases hrt : resolveTarget sd2 ld2 dv rdv with
  | none =>
    rw [hrt] at hip
    simp [buildCommissionOptions] at hip
  | some f2 => rfl

/-- C3 (witness): commissioning with a bare 8-digit code against a scanner
record carrying an IPv4 address sends options with a forced address and no
identifier hint. -/
theorem forced_address_suppresses_discovery_hint_witness :
    (buildCommissionOptions (some 20202021) (some 5)
        (some ⟨rec1280, "10.0.0.9", 5540, some 1280⟩)).identifierData = none ∧
    ((⟨some 20202021, [("10.0.0.9", 5540)], 30, none, some ("10.0.0.9", 5540),
        some "10.0.0.9", some 5540⟩ : CommissionOptions).ip.isSome = true →
      (⟨some 20202021, [("10.0.0.9", 5540)], 30, none, some ("10.0.0.9", 5540),
        some "10.0.0.9", some 5540⟩ : CommissionOptions).identifierData = none) := by
  have h := forced_address_suppresses_discovery_hint (some 20202021) (some 5)
    ⟨rec1280, "10.0.0.9", 5540, some 1280⟩ decFail [rec1280] [] cnOk "001" none
    (some "20202021") []
    ⟨some 20202021, [("10.0.0.9", 5540)], 30, none, some ("10.0.0.9", 5540),
      some "10.0.0.9", some 5540⟩ (by decide)
  exact ⟨h.2.2.2.2.1, h.2.2.2.2.2⟩

/-- C4: after the unpair handler completes, the registry holds no entry for
the supplied identifier (it is always exactly `regDelete` of the previous
registry); a corrupted-placeholder identifier is deleted and reported as a
success with no dependence on the controller; a failing controller removal
still deletes the entry while responding 500. -/
theorem unpair_always_purges_entry (cp : Bool) (rn : String → Except String Unit)
    (id : String) (reg : Registry) :
    regHas (unpairHandler cp rn id reg).2 id = false ∧
    (unpairHandler cp rn id reg).2 = regDelete reg id ∧
    (isCorruptedId id = true →
      unpairHandler cp rn id reg = (.okNote "Removed invalid entry", regDelete reg id)) ∧
    (∀ e, isCorruptedId id = false → cp = true → rn id = .error e →
      unpairHandler cp rn id reg = (.err 500 e, regDelete reg id)) := by
  refine ⟨?_, unpairHandler_registry cp rn id reg, ?_, ?_⟩
  · rw [unpairHandler_registry]
    exact regHas_regDelete reg id
  · intro h
    simp [unpairHandler, h]
  · intro e h1 h2 h3
    simp [unpairHandler, h1, h2, h3]

/-- C4 (witness): unpairing the corrupted placeholder succeeds and purges
it; unpairing a real id whose controller removal fails responds 500 and
still purges it. -/
theorem unpair_always_purges_entry_witness :
    unpairHandler false rnFail "[object Object]"
        [("[object Object]", ⟨"[object Object]", "Unknown", "x"⟩)] =
      (.okNote "Removed invalid entry",
        regDelete [("[object Object]", ⟨"[object Object]", "Unknown", "x"⟩)]
          "[object Object]") ∧
    unpairHandler true rnFail "5" regOne = (.err 500 "boom", regDelete regOne "5") ∧
    regHas (unpairHandler true rnFail "5" regOne).2 "5" = false := by
  refine ⟨?_, ?_, ?_⟩
  · exact (unpair_always_purges_entry false rnFail "[object Object]"
      [("[object Object]", ⟨"[object Object]", "Unknown", "x"⟩)]).2.2.1 (by decide)
  · exact (unpair_always_purges_entry true rnFail "5" regOne).2.2.2 "boom"
      (by decide) rfl rfl
  · exact (unpair_always_purges_entry true rnFail "5" regOne).1

/-- C5: each control handler (toggle, brightness, color, state read)
rejects a corrupted-placeholder identifier with a 400 response whose value
does not depend on the connect oracle (so no connection is attempted),
issues no command, and leaves the registry unchanged. -/
theorem corrupted_id_rejected_before_connect
    (connect : String → Except String (List Endpoint)) (read : Except String ReadSource)
    (id : String) (onFlag : Bool) (level hue sat : Int) (reg : Registry)
    (h : isCorruptedId id = true) :
    toggleHandler connect id onFlag reg =
      (.err 400 "Invalid Node ID (Corrupted). Please Unpair/Remove this device.",
        [], reg) ∧
    brightnessHandler connect id level reg = (.err 400 "Invalid Node ID", [], reg) ∧
    colorHandler connect id hue sat reg = (.err 400 "Invalid Node ID", [], reg) ∧
    stateHandler connect read id reg = (.err 400 "Invalid Node ID", reg) := by
  refine ⟨?_, ?_, ?_, ?_⟩
  · simp [toggleHandler, h]
  · simp [brightnessHandler, h]
  · simp [colorHandler, h]
  · simp [stateHandler, h]

/-- C5 (witness): the corrupted placeholder id is rejected by all four
handlers at a concrete registry, which stays unchanged. -/
theorem corrupted_id_rejected_before_connect_witness :
    toggleHandler connectOne "[object Object]" true regOne =
      (.err 400 "Invalid Node ID (Corrupted). Please Unpair/Remove this device.",
        [], regOne) ∧
    stateHandler connectOne (.ok (.attr (.jbool true))) "[object Object]" regOne =
      (.err 400 "Invalid Node ID", regOne) := by
  have h := corrupted_id_rejected_before_connect connectOne
    (.ok (.attr (.jbool true))) "[object Object]" true 50 10 10 regOne (by decide)
  exact ⟨h.1, h.2.2.2⟩

/-- C6: the address filter removes exactly the addresses whose textual form
contains a colon — the surviving address list is the colon-free filter of
the original in order, hence no survivor contains a colon and every
colon-free address is preserved — and the filter is idempotent. -/
theorem filterIPv6_removes_exactly_colon_addresses (a : FAddresses)
    (ident : Option String) :
    filterIPv6 (some ⟨some a, ident⟩) = some ⟨some (filterFA a), ident⟩ ∧
    addressIps (filterFA a) = (addressIps a).filter (fun ip => !isIPv6 ip) ∧
    (∀ ip ∈ addressIps (filterFA a), isIPv6 ip = false) ∧
    filterIPv6 (filterIPv6 (some ⟨some a, ident⟩)) = filterIPv6 (some ⟨some a, ident⟩) := by
  have heq : addressIps (filterFA a) = (addressIps a).filter (fun ip => !isIPv6 ip) := by
    cases a with
    | fmap es =>
      simpa [filterFA, addressIps] using
        map_filter_comm (fun e : String × AddrInfo => e.1) (fun ip => !isIPv6 ip) es
    | farr items =>
      simpa [filterFA, addressIps] using
        map_filter_comm faIp (fun ip => !isIPv6 ip) items
  refine ⟨rfl, heq, ?_, ?_⟩
  · intro ip hm
    rw [heq] at hm
    have := List.of_mem_filter hm
    simpa using this
  · simp [filterIPv6, filterFA_idem]

/-- C6 (witness): filtering a concrete mixed array removes exactly the
colon-containing address, keeps the IPv4 one, and is idempotent. -/
theorem filterIPv6_removes_exactly_colon_addresses_witness :
    filterIPv6 (filterIPv6 (some ⟨some (.farr [.str "10.0.0.9", .str "fe80::1"]), none⟩)) =
      filterIPv6 (some ⟨some (.farr [.str "10.0.0.9", .str "fe80::1"]), none⟩) ∧
    isIPv6 "10.0.0.9" = false := by
  have h := filterIPv6_removes_exactly_colon_addresses
    (.farr [.str "10.0.0.9", .str "fe80::1"]) none
  exact ⟨h.2.2.2, h.2.2.1 "10.0.0.9" (by decide)⟩

/-- C7: the three collection shapes for the same logical addresses — a map
keyed by address, a list of (address, metadata) pairs, and a flat list of
bare addresses — are observably equivalent under the address-filtering
pipeline: normalization flattens each to exactly the address list, the
IPv4 selection survivors agree across shapes, and the in-place filter
yields the uniform filtered list of the spec for both of its shapes. -/
theorem address_shapes_observably_equivalent (ips : List String)
    (meta : String → AddrInfo) :
    normalizedIps (.amap (pairsOf ips meta)) = ips ∧
    normalizedIps (.pairs (pairsOf ips meta)) = ips ∧
    normalizedIps (.flat ips) = ips ∧
    survivingIps (.amap (pairsOf ips meta)) = survivingIps (.flat ips) ∧
    survivingIps (.pairs (pairsOf ips meta)) = survivingIps (.flat ips) ∧
    survivingIps (.flat ips) = ips.filter isIPv4Shaped ∧
    addressIps (filterFA (.fmap (pairsOf ips meta))) = uniformFilteredList ips ∧
    addressIps (filterFA (.farr (ips.map FAddr.str))) = uniformFilteredList ips := by
  have hflat : survivingIps (.flat ips) = ips.filter isIPv4Shaped := by
    simpa [survivingIps, normalizeAddresses] using
      filter_fst_pairs isIPv4Shaped (fun _ => ⟨none⟩) ips
  refine ⟨?_, ?_, ?_, ?_, ?_, hflat, ?_, ?_⟩
  · exact map_fst_pairsOf ips meta
  · exact map_fst_pairsOf ips meta
  · exact map_fst_pairsOf ips (fun _ => ⟨none⟩)
  · rw [hflat]
    simpa [survivingIps, normalizeAddresses, pairsOf] using
      filter_fst_pairs isIPv4Shaped meta ips
  · rw [hflat]
    simpa [survivingIps, normalizeAddresses, pairsOf] using
      filter_fst_pairs isIPv4Shaped meta ips
  · calc addressIps (filterFA (.fmap (pairsOf ips meta)))
        = ((pairsOf ips meta).filter (fun e => !isIPv6 e.1)).map (fun e => e.1) := rfl
      _ = ((pairsOf ips meta).map (fun e => e.1)).filter (fun ip => !isIPv6 ip) :=
        map_filter_comm (fun e : String × AddrInfo => e.1) (fun ip => !isIPv6 ip)
          (pairsOf ips meta)
      _ = ips.filter (fun ip => !isIPv6 ip) := by rw [map_fst_pairsOf]
      _ = uniformFilteredList ips := rfl
  · calc addressIps (filterFA (.farr (ips.map FAddr.str)))
        = ((ips.map FAddr.str).filter (fun a => !isIPv6 (faIp a))).map faIp := rfl
      _ = ((ips.map FAddr.str).map faIp).filter (fun ip => !isIPv6 ip) :=
        map_filter_comm faIp (fun ip => !isIPv6 ip) (ips.map FAddr.str)
      _ = ips.filter (fun ip => !isIPv6 ip) := by rw [map_faIp_str]
      _ = uniformFilteredList ips := rfl

/-- C8 (counterexample): a brightness request with level 100 issues the
native command with level 100, not 254 — so the caller-supplied value is
not linearly mapped from a 0-100 percentage onto the native 0-254 range
before invocation. -/
theorem brightness_no_percentage_mapping :
    brightnessHandler connectOne "42" 100 [] =
      (.ok, [Command.moveToLevel 100 0], []) ∧
    Command.moveToLevel 100 0 ≠ Command.moveToLevel 254 0 := by
  exact ⟨by decide, by decide⟩

/-- C8 (amended): for every brightness request that locates a LevelControl
capability, the caller-supplied level is passed through to the
move-to-level command unchanged (the caller supplies the native range; no
mapping or clamping is applied), and the command requests transition
time 0. -/
theorem brightness_passthrough_no_transition
    (connect : String → Except String (List Endpoint)) (id : String) (level : Int)
    (reg : Registry) (devices : List Endpoint) (d : Endpoint)
    (hid : isCorruptedId id = false) (hc : connect id = .ok devices)
    (hf : devices.find? (fun e => e.hasLevel) = some d) :
    brightnessHandler connect id level reg = (.ok, [Command.moveToLevel level 0], reg) := by
  simp [brightnessHandler, hid, hc, hf]

/-- C8 (witness): the scenario given by the spec — an unclamped level of -5 is
passed through with no transition time. -/
theorem brightness_passthrough_no_transition_witness :
    brightnessHandler connectOne "7" (-5) regOne =
      (.ok, [Command.moveToLevel (-5) 0], regOne) := by
  exact brightness_passthrough_no_transition connectOne "7" (-5) regOne
    [levelEndpoint] levelEndpoint (by decide) rfl (by decide)

/-- C9: when the on/off attribute read returns a wrapper object of shape
`{value: v}`, the success response of the state handler is `{success: true,
is_on}` with `is_on` the unwrapped `v` — never the wrapper itself. -/
theorem state_read_unwraps_value_wrapper
    (connect : String → Except String (List Endpoint)) (id : String) (reg : Registry)
    (devices : List Endpoint) (d : Endpoint) (v : JsVal)
    (hid : isCorruptedId id = false) (hc : connect id = .ok devices)
    (hf : devices.find? (fun e => e.hasOnOff) = some d) :
    stateHandler connect (.ok (.attr (.jobjVal v))) id reg = (.okState (some v), reg) ∧
    JsVal.jobjVal v ≠ v := by
  refine ⟨?_, jobjVal_ne_self v⟩
  simp [stateHandler, hid, hc, hf, unwrapOnOff]

/-- C9 (witness): reading a wrapped `{value: true}` yields `is_on` equal to
the plain boolean true. -/
theorem state_read_unwraps_value_wrapper_witness :
    stateHandler connectOne (.ok (.attr (.jobjVal (.jbool true)))) "7" regOne =
      (.okState (some (.jbool true)), regOne) := by
  exact (state_read_unwraps_value_wrapper connectOne "7" regOne [levelEndpoint]
    levelEndpoint (.jbool true) (by decide) rfl (by decide)).1

/-- C10: across every sequence of commission, list and unpair operations
starting from a well-formed registry, the `nodeId` of each stored record equals
its map key and the keys stay duplicate-free, so the device listing never
holds two entries with the same `nodeId`; and setting an already-registered
key overwrites in place, leaving the key sequence unchanged. -/
theorem registry_nodeId_key_invariant (ops : List ServerOp) (reg : Registry)
    (hwf : registryWF reg = true) (hnd : keysNodup reg = true) :
    registryWF (runOps reg ops) = true ∧
    keysNodup (runOps reg ops) = true ∧
    ((runOps reg ops).map (fun p => p.2.nodeId)).Nodup ∧
    (∀ k v2, regHas reg k = true →
      (regSet reg k v2).map (fun p => p.1) = reg.map (fun p => p.1)) := by
  obtain ⟨h1, h2⟩ := runOps_preserves ops reg hwf hnd
  refine ⟨h1, h2, ?_, fun k v2 hk => regSet_keys_of_mem reg k v2 hk⟩
  rw [nodeIds_eq_keys _ h1]
  exact keysNodup_nodup _ h2

/-- C10 (witness): a concrete commission-then-unpair sequence preserves
the invariant, and re-setting the registered key of a one-entry registry
keeps the key sequence. -/
theorem registry_nodeId_key_invariant_witness :
    registryWF (runOps regOne
      [.commission decFail [rec1280] [] cnOk "001" none (some "20202021"),
       .unpair false rnFail "5"]) = true ∧
    ((runOps regOne
      [.commission decFail [rec1280] [] cnOk "001" none (some "20202021"),
       .unpair false rnFail "5"]).map (fun p => p.2.nodeId)).Nodup ∧
    (regSet regOne "5" ⟨"5", "Unknown", "renamed"⟩).map (fun p => p.1) =
      regOne.map (fun p => p.1) := by
  have h := registry_nodeId_key_invariant
    [.commission decFail [rec1280] [] cnOk "001" none (some "20202021"),
     .unpair false rnFail "5"] regOne (by decide) (by decide)
  exact ⟨h.1, h.2.2.1, h.2.2.2 "5" ⟨"5", "Unknown", "renamed"⟩ (by decide)⟩

end XrHome
